import Mathlib

/-!
# Ticket validation & repair pipeline — shallow embedding

This file embeds the ticket-validator module (`validateAndRepairTickets`,
`validateSingleTicket` and their helpers) and proves properties of it.

Conventions of the embedding:

* JS runtime values are modelled by the inductive type `JSValue`; JS numbers
  are modelled as exact rationals (`ℚ`).  All decimal constants of the source
  (`0.75`, `0.05`, …) are exactly representable, and the final
  `Math.round(x*100)/100` rounding is modelled exactly, so the observable
  confidence values agree with the JS double computation on the inputs used
  here.
* JS string built-ins are modelled on the character list: `jsTrim` models
  `String.prototype.trim` (strip leading and trailing whitespace), `jsToLower`
  models `toLowerCase` (ASCII case mapping), `jsIncludes` models `includes`
  (substring containment).
* Property reads `raw.x` are total (`getField` yields the field, or
  `undefined` for absent fields and non-object receivers) except that reading
  a property of `null`/`undefined` throws a `TypeError` in JS.  The pipeline
  performs its first read (`raw.title`) on every array element
  unconditionally, so `validateSingleTicket` is `Except`-valued and errors
  exactly on those two receivers; all later reads are on the same receiver
  and cannot fail.
* The single mutation `raw.open_questions = …` is modelled functionally by
  `setField`; all reads after that statement go through the updated object.
* `crypto.randomUUID()` is modelled by a caller-supplied generator
  `gen : ℕ → String` yielding the fresh id used for the i-th array element
  (uniqueness of the generated ids is irrelevant to the properties proved
  here).
* Alias-table lookups (`aliases[lower]`) are modelled as lookups in an
  association list of the literal key/value pairs; the looked-up values are
  non-empty strings, so JS truthiness of the lookup coincides with presence.
-/

/-- A JS runtime value, as far as the pipeline inspects one. -/
inductive JSValue where
  | vNull
  | vUndefined
  | vBool (b : Bool)
  | vNum (q : ℚ)
  | vStr (s : String)
  | vArr (elems : List JSValue)
  | vObj (fields : List (String × JSValue))

/-- JS `String.prototype.trim`: strip leading and trailing whitespace. -/
def jsTrim (s : String) : String :=
  ⟨((s.data.dropWhile Char.isWhitespace).reverse.dropWhile Char.isWhitespace).reverse⟩

/-- JS `String.prototype.toLowerCase` (ASCII case mapping). -/
def jsToLower (s : String) : String :=
  ⟨s.data.map Char.toLower⟩

/-- JS `String.prototype.includes`: substring containment. -/
def jsIncludes (s pat : String) : Bool :=
  s.data.tails.any (fun t => pat.data.isPrefixOf t)

/-- Property read `receiver.key` on a receiver that is not `null`/`undefined`:
the field value for objects carrying the key, `undefined` otherwise
(primitives and arrays have none of the properties the pipeline reads). -/
def getField (v : JSValue) (k : String) : JSValue :=
  match v with
  | .vObj fs =>
    match fs.find? (fun p => p.1 = k) with
    | some p => p.2
    | none => .vUndefined
  | _ => .vUndefined

/-- Property write `receiver.key = x` (used once, for `raw.open_questions`):
replaces or appends the field on an object, no-op otherwise. -/
def setField (v : JSValue) (k : String) (x : JSValue) : JSValue :=
  match v with
  | .vObj fs =>
    if fs.any (fun p => p.1 = k) then
      .vObj (fs.map (fun p => if p.1 = k then (k, x) else p))
    else
      .vObj (fs ++ [(k, x)])
  | other => other

/-- JS truthiness (`NaN` is not modelled; no claim depends on it). -/
def truthy (v : JSValue) : Bool :=
  match v with
  | .vNull => false
  | .vUndefined => false
  | .vBool b => b
  | .vNum q => q != 0
  | .vStr s => s != ""
  | .vArr _ => true
  | .vObj _ => true

/-- Narrowing for `typeof v === 'string'`. -/
def asString? (v : JSValue) : Option String :=
  match v with
  | .vStr s => some s
  | _ => none

/-- Narrowing for `typeof v === 'number'`. -/
def asNumber? (v : JSValue) : Option ℚ :=
  match v with
  | .vNum q => some q
  | _ => none

/-- Narrowing for `typeof v === 'boolean'`. -/
def asBool? (v : JSValue) : Option Bool :=
  match v with
  | .vBool b => some b
  | _ => none

/-- Narrowing for `typeof v === 'object' && v !== null` (objects and arrays). -/
def isJsObject (v : JSValue) : Bool :=
  match v with
  | .vObj _ => true
  | .vArr _ => true
  | _ => false

/-- Nullish coalescing `a ?? b`. -/
def jsNullish (a b : JSValue) : JSValue :=
  match a with
  | .vNull => b
  | .vUndefined => b
  | _ => a

/-- JS `String(v)` / template-literal conversion.  Only the string case is
exercised by the pipeline on the inputs of the claims; the conversion of
numbers and arrays is approximated. -/
def jsToString (v : JSValue) : String :=
  match v with
  | .vStr s => s
  | .vNull => "null"
  | .vUndefined => "undefined"
  | .vBool b => if b then "true" else "false"
  | .vNum q => toString q
  | .vArr _ => ""
  | .vObj _ => "[object Object]"

/-- JS `Math.round` (round half toward `+∞`). -/
def jsRound (q : ℚ) : ℤ := ⌊q + 1/2⌋

/-- Rounding to 2 decimal places: `Math.round(q * 100) / 100`. -/
def round2 (q : ℚ) : ℚ := (jsRound (q * 100) : ℚ) / 100

-- == Fuzzy enum maps (source lines 29-65) ====================================

/-- Source `TYPE_ALIASES` (lines 29-50). -/
def TYPE_ALIASES : List (String × String) :=
  [("feature", "user_story"), ("story", "user_story"), ("user_story", "user_story"),
   ("task", "task"), ("bug", "bug"), ("fix", "bug"),
   ("spike", "spike"), ("research", "spike"), ("exploration", "spike"),
   ("infrastructure", "infrastructure"), ("infra", "infrastructure"), ("devops", "infrastructure"),
   ("decision", "decision"), ("policy", "decision"),
   ("qa", "task"), ("testing", "task"), ("improvement", "task"),
   ("enhancement", "task"), ("docs", "task")]

/-- Source `EFFORT_ALIASES` (lines 52-58). -/
def EFFORT_ALIASES : List (String × String) :=
  [("xs", "XS"), ("xsmall", "XS"), ("x-small", "XS"),
   ("s", "S"), ("small", "S"),
   ("m", "M"), ("medium", "M"), ("med", "M"),
   ("l", "L"), ("large", "L"),
   ("xl", "XL"), ("xlarge", "XL"), ("x-large", "XL")]

/-- Source `PRIORITY_ALIASES` (lines 60-65). -/
def PRIORITY_ALIASES : List (String × String) :=
  [("critical", "critical"), ("urgent", "critical"), ("p0", "critical"),
   ("high", "high"), ("p1", "high"),
   ("medium", "medium"), ("normal", "medium"), ("p2", "medium"),
   ("low", "low"), ("minor", "low"), ("p3", "low")]

-- == Public types (source lines 69-89) =======================================

/-- Source `ValidationContext` (lines 69-74). -/
structure ValidationContext where
  sourceDocIds : List String
  hasDocuments : Bool

/-- Source `ValidationLog` (lines 81-89). -/
structure ValidationLog where
  total_input : ℕ
  total_output : ℕ
  repaired : ℕ
  dropped : ℕ
  promoted_to_decision : ℕ
  citations_injected : ℕ
  reasons : List String

/-- Shared-module `TicketCitation`: citations carry string
`document_id`/`chunk_id` and optional numeric line bounds. -/
structure TicketCitation where
  document_id : String
  chunk_id : String
  line_start : Option ℚ := none
  line_end : Option ℚ := none

/-- Shared-module `SetupRequirement`.  The `type` field
ranges over the `SetupRequirementType` string enum. -/
structure SetupRequirement where
  description : String
  type : String
  resolved : Bool

/-- The canonical `Ticket` produced by the pipeline.  The string-enum fields
(`type`, `estimated_effort`, `priority`, `readiness`, `source_mode`) are
modelled as strings, exactly the values the source assigns. -/
structure Ticket where
  id : String
  objectID : String
  title : String
  description : String
  type : String
  acceptance_criteria : List String
  known_edge_cases : List String
  open_questions : List String
  setup_requirements : List SetupRequirement
  dependencies : List String
  estimated_effort : String
  priority : String
  labels : List String
  suggested_assignee : String
  confidence : ℚ
  citations : List TicketCitation
  citation_keys : List String
  stakeholders : Option (List String)
  suggested_dependencies : Option (List String)
  is_derived : Option Bool
  derived_rationale : Option String
  readiness : String
  readiness_reason : Option String
  source_docs : Option (List String)
  source_mode : String
  workspace_id : Option String
  owner_uid : Option String

/-- Source `ValidationResult` (lines 76-79). -/
structure ValidationResult where
  tickets : List Ticket
  log : ValidationLog

-- == Helper functions (source lines 337-406) =================================

/-- Result of `normalizeEnum`: the resolved value and the
`wasNormalized` flag. -/
structure NormResult where
  value : String
  wasNormalized : Bool

/-- Source `normalizeEnum` (lines 337-349).  Note that on an alias hit the
flag is `lower !== raw` — it compares the lower-cased trimmed string with the
raw string, not the resolved value with the raw value. -/
def normalizeEnum (raw : JSValue) (aliases : List (String × String))
    (fallback : String) : NormResult :=
  match raw with
  | .vStr s =>
    let lower := jsTrim (jsToLower s)
    match aliases.find? (fun p => p.1 = lower) with
    | some p => ⟨p.2, lower != s⟩
    | none =>
      -- Check if it is already a valid value (case-sensitive match)
      if (aliases.map (fun p => p.2)).contains s then ⟨s, false⟩
      else ⟨fallback, true⟩
  | _ => ⟨fallback, true⟩

/-- Source `normalizeType` (lines 351-353). -/
def normalizeType (raw : JSValue) : String :=
  (normalizeEnum raw TYPE_ALIASES "task").value

/-- Source `normalizeReadiness` (lines 355-359). -/
def normalizeReadiness (raw : JSValue) : String :=
  match raw with
  | .vStr s => if ["ready", "partially_blocked", "blocked"].contains s then s else "ready"
  | _ => "ready"

/-- Source `toStringArray` (lines 361-364): keep the elements that are
strings and non-empty after trimming. -/
def toStringArray (raw : JSValue) : List String :=
  match raw with
  | .vArr xs =>
    xs.filterMap (fun v =>
      match v with
      | .vStr s => if 0 < (jsTrim s).length then some s else none
      | _ => none)
  | _ => []

/-- Source `parseCitations` (lines 366-384): keep only object entries with
string `document_id` and `chunk_id`; optional numeric line bounds. -/
def parseCitations (raw : JSValue) : List TicketCitation :=
  match raw with
  | .vArr xs =>
    xs.filterMap (fun c =>
      if isJsObject c then
        match asString? (getField c "document_id"), asString? (getField c "chunk_id") with
        | some d, some ch =>
          some { document_id := d, chunk_id := ch,
                 line_start := asNumber? (getField c "line_start"),
                 line_end := asNumber? (getField c "line_end") }
        | _, _ => none
      else none)
  | _ => []

/-- Source `parseSetupRequirements` (lines 386-406). -/
def parseSetupRequirements (raw : JSValue) : List SetupRequirement :=
  match raw with
  | .vArr xs =>
    xs.map (fun item =>
      match item with
      | .vStr s => { description := s, type := "other", resolved := false }
      | _ =>
        if isJsObject item then
          { description :=
              match asString? (getField item "description") with
              | some s => s
              | none =>
                jsToString (if truthy (getField item "description")
                            then getField item "description" else .vStr "")
            type :=
              match asString? (getField item "type") with
              | some t =>
                if ["external_system", "prior_ticket", "decision", "schema", "other"].contains t
                then t else "other"
              | none => "other"
            resolved := (asBool? (getField item "resolved")).getD false }
        else
          { description := jsToString item, type := "other", resolved := false })
  | _ => []

-- == Per-candidate pipeline (source lines 129-333) ===========================
-- The source computes these values as successive `const`/`let` bindings of
-- `validateSingleTicket`; each is given here as a named definition, in
-- source order, and `validateSingleTicket` assembles exactly the object the
-- source returns.

/-- Line 135: `typeof raw.title === 'string' ? raw.title.trim() : ''`. -/
def titleOf (raw : JSValue) : String :=
  match asString? (getField raw "title") with
  | some s => jsTrim s
  | none => ""

/-- Line 143: the acceptance criteria as first extracted. -/
def acInitialOf (raw : JSValue) : List String :=
  toStringArray (getField raw "acceptance_criteria")

/-- Line 147: the decision-promotion trigger `ac.length < 2`. -/
def wasPromotedOf (raw : JSValue) : Bool :=
  (acInitialOf raw).length < 2

/-- Line 155: pre-existing `open_questions`, read before the mutation. -/
def existingOQOf (raw : JSValue) : List String :=
  toStringArray (getField raw "open_questions")

/-- Line 156: `ac.length > 0 ? ac : []`. -/
def movedACOf (raw : JSValue) : List String :=
  if 0 < (acInitialOf raw).length then acInitialOf raw else []

/-- Lines 157-160: the acceptance criteria after the promotion branch. -/
def acOf (raw : JSValue) : List String :=
  if wasPromotedOf raw then
    ["Document the decision outcome", "Communicate decision to affected stakeholders"]
  else acInitialOf raw

/-- Line 162: the mutation `raw.open_questions = [...existingOQ,
...movedAC.map(a => \x7bprefix\x7d a)]`; every later read of `raw` goes
through this value. -/
def rawAfterPromotionOf (raw : JSValue) : JSValue :=
  if wasPromotedOf raw then
    setField raw "open_questions"
      (.vArr ((existingOQOf raw ++
        (movedACOf raw).map (fun a => "[Needs clarification] " ++ a)).map .vStr))
  else raw

/-- Line 167: `normalizeEnum(raw.type, TYPE_ALIASES, 'task')`. -/
def typeNormOf (raw : JSValue) : NormResult :=
  normalizeEnum (getField (rawAfterPromotionOf raw) "type") TYPE_ALIASES "task"

/-- Lines 144/149/168-170: the final `type` — `'decision'` when promoted,
otherwise the normalized type. -/
def typeOf (raw : JSValue) : String :=
  if wasPromotedOf raw then "decision" else (typeNormOf raw).value

/-- Line 177: `normalizeEnum(raw.priority, PRIORITY_ALIASES, 'medium')`. -/
def priorityNormOf (raw : JSValue) : NormResult :=
  normalizeEnum (getField (rawAfterPromotionOf raw) "priority") PRIORITY_ALIASES "medium"

/-- Line 183: `normalizeEnum(raw.estimated_effort, EFFORT_ALIASES, 'M')`. -/
def effortNormOf (raw : JSValue) : NormResult :=
  normalizeEnum (getField (rawAfterPromotionOf raw) "estimated_effort") EFFORT_ALIASES "M"

/-- Line 184: `!raw.estimated_effort || effort.wasNormalized`. -/
def effortWasInferredOf (raw : JSValue) : Bool :=
  !truthy (getField (rawAfterPromotionOf raw) "estimated_effort") ||
    (effortNormOf raw).wasNormalized

/-- Lines 166-187: the accumulated `confidencePenalty`
(`+0.05` type, `+0.03` priority, `+0.1` effort). -/
def confidencePenaltyOf (raw : JSValue) : ℚ :=
  (if (typeNormOf raw).wasNormalized then 0.05 else 0) +
  (if (priorityNormOf raw).wasNormalized then 0.03 else 0) +
  (if effortWasInferredOf raw then 0.1 else 0)

/-- Lines 190-192: the starting confidence. -/
def confInitialOf (raw : JSValue) : ℚ :=
  match asNumber? (getField (rawAfterPromotionOf raw) "confidence") with
  | some q => if 0 ≤ q ∧ q ≤ 1 then q else 0.75
  | none => 0.75

/-- Lines 193-195: `Math.min(confidence, 0.6)` when promoted. -/
def confAfterPromotionCapOf (raw : JSValue) : ℚ :=
  if wasPromotedOf raw then min (confInitialOf raw) 0.6 else confInitialOf raw

/-- Line 196: `Math.max(0, confidence - confidencePenalty)`. -/
def confAfterPenaltyOf (raw : JSValue) : ℚ :=
  max 0 (confAfterPromotionCapOf raw - confidencePenaltyOf raw)

/-- Line 199: `parseCitations(raw.citations)`. -/
def citationsParsedOf (raw : JSValue) : List TicketCitation :=
  parseCitations (getField (rawAfterPromotionOf raw) "citations")

/-- Line 200: `ctx.hasDocuments ? 'grounded' : 'synthetic'`. -/
def sourceModeOf (ctx : ValidationContext) : String :=
  if ctx.hasDocuments then "grounded" else "synthetic"

/-- Line 202: the grounding-injection trigger. -/
def citationInjectedOf (raw : JSValue) (ctx : ValidationContext) : Bool :=
  sourceModeOf ctx == "grounded" && (citationsParsedOf raw).length == 0 &&
    0 < ctx.sourceDocIds.length

/-- Lines 202-204: the citation list after grounding enforcement. -/
def citationsOf (raw : JSValue) (ctx : ValidationContext) : List TicketCitation :=
  if citationInjectedOf raw ctx then
    [{ document_id := ctx.sourceDocIds.headI, chunk_id := "inferred" }]
  else citationsParsedOf raw

/-- Lines 202-209: `Math.max(0, confidence - 0.05)` when a citation was
injected. -/
def confAfterGroundingOf (raw : JSValue) (ctx : ValidationContext) : ℚ :=
  if citationInjectedOf raw ctx then max 0 (confAfterPenaltyOf raw - 0.05)
  else confAfterPenaltyOf raw

/-- Lines 214-217: `suggested_assignee`, accepting the legacy names. -/
def suggestedAssigneeOf (raw : JSValue) : String :=
  match asString? (getField (rawAfterPromotionOf raw) "suggested_assignee") with
  | some s => s
  | none =>
    match asString? (getField (rawAfterPromotionOf raw) "assignee_role") with
    | some s => s
    | none => (asString? (getField (rawAfterPromotionOf raw) "assignee")).getD ""

/-- Line 220: `toStringArray(raw.dependencies ?? raw.depends_on)`. -/
def dependenciesOf (raw : JSValue) : List String :=
  toStringArray (jsNullish (getField (rawAfterPromotionOf raw) "dependencies")
    (getField (rawAfterPromotionOf raw) "depends_on"))

/-- Line 223. -/
def suggestedDependenciesOf (raw : JSValue) : List String :=
  toStringArray (getField (rawAfterPromotionOf raw) "suggested_dependencies")

/-- Line 224. -/
def stakeholdersOf (raw : JSValue) : List String :=
  toStringArray (getField (rawAfterPromotionOf raw) "stakeholders")

/-- Line 225: `typeof raw.is_derived === 'boolean' ? raw.is_derived :
undefined`. -/
def isDerivedOf (raw : JSValue) : Option Bool :=
  asBool? (getField (rawAfterPromotionOf raw) "is_derived")

/-- Line 226: the rationale is kept only when `is_derived` is truthy. -/
def derivedRationaleOf (raw : JSValue) : Option String :=
  match asString? (getField (rawAfterPromotionOf raw) "derived_rationale") with
  | some s => if isDerivedOf raw = some true then some s else none
  | none => none

/-- Line 227. -/
def readinessOf (raw : JSValue) : String :=
  normalizeReadiness (getField (rawAfterPromotionOf raw) "readiness")

/-- Line 228. -/
def readinessReasonOf (raw : JSValue) : Option String :=
  asString? (getField (rawAfterPromotionOf raw) "readiness_reason")

/-- Line 231: `toStringArray(raw.known_edge_cases ?? raw.edge_cases)`. -/
def knownEdgeCasesOf (raw : JSValue) : List String :=
  toStringArray (jsNullish (getField (rawAfterPromotionOf raw) "known_edge_cases")
    (getField (rawAfterPromotionOf raw) "edge_cases"))

/-- Line 232: `toStringArray(raw.open_questions)` — the read after the
mutation of line 162. -/
def openQuestionsOf (raw : JSValue) : List String :=
  toStringArray (getField (rawAfterPromotionOf raw) "open_questions")

/-- Lines 236-238: the placeholder edge-case detector. -/
def hasPlaceholderEdgeCasesOf (raw : JSValue) : Bool :=
  (knownEdgeCasesOf raw).length == 1 &&
    (["handle basic success case", "handle success case", "handle basic case",
      "handle errors"].any
      (fun p => jsIncludes (jsToLower (knownEdgeCasesOf raw).headI) p))

/-- Lines 241-254: the final `known_edge_cases` policy. -/
def finalKnownEdgeCasesOf (raw : JSValue) : List String :=
  if typeOf raw = "decision" then
    if hasPlaceholderEdgeCasesOf raw || (knownEdgeCasesOf raw).length == 0 then []
    else knownEdgeCasesOf raw
  else
    if 0 < (knownEdgeCasesOf raw).length then knownEdgeCasesOf raw
    else ["Handle basic success case"]

/-- Lines 258-262 (Rule 1): decision tickets with open questions are capped
at 0.75. -/
def confAfterRule1Of (raw : JSValue) (ctx : ValidationContext) : ℚ :=
  if typeOf raw = "decision" ∧ 0 < (openQuestionsOf raw).length then
    min (confAfterGroundingOf raw ctx) 0.75
  else confAfterGroundingOf raw ctx

/-- Lines 265-270 (Rule 1b): decision tickets are clamped into
`[0.4, 0.75]`. -/
def confAfterRule1bOf (raw : JSValue) (ctx : ValidationContext) : ℚ :=
  if typeOf raw = "decision" then
    max (min (confAfterRule1Of raw ctx) 0.75) 0.4
  else confAfterRule1Of raw ctx

/-- Lines 273-277: the `is_derived` penalty, applied after the decision
clamp. -/
def confFinalOf (raw : JSValue) (ctx : ValidationContext) : ℚ :=
  if isDerivedOf raw = some true then max 0 (confAfterRule1bOf raw ctx - 0.1)
  else confAfterRule1bOf raw ctx

/-- Line 279. -/
def setupRequirementsOf (raw : JSValue) : List SetupRequirement :=
  parseSetupRequirements (getField (rawAfterPromotionOf raw) "setup_requirements")

/-- Line 280. -/
def labelsOf (raw : JSValue) : List String :=
  toStringArray (getField (rawAfterPromotionOf raw) "labels")

/-- Line 327: preserve `objectID`/`id`, else a fresh identifier. -/
def ticketIdOf (raw : JSValue) (freshId : String) : String :=
  match asString? (getField (rawAfterPromotionOf raw) "objectID") with
  | some s => s
  | none => (asString? (getField (rawAfterPromotionOf raw) "id")).getD freshId

/-- Lines 285-332: the `filledTicket` object returned for a kept candidate
(including the `id`/`objectID` assignment of lines 326-330). -/
def ticketOf (raw : JSValue) (ctx : ValidationContext) (freshId : String) : Ticket :=
  { title := titleOf raw
    description := (asString? (getField (rawAfterPromotionOf raw) "description")).getD ""
    type := typeOf raw
    acceptance_criteria :=
      if 2 ≤ (acOf raw).length then acOf raw
      else ["Complete implementation", "Verify behavior meets requirements"]
    known_edge_cases := finalKnownEdgeCasesOf raw
    open_questions := if 0 < (openQuestionsOf raw).length then openQuestionsOf raw else []
    setup_requirements :=
      if 0 < (setupRequirementsOf raw).length then setupRequirementsOf raw else []
    dependencies := if 0 < (dependenciesOf raw).length then dependenciesOf raw else []
    estimated_effort := (effortNormOf raw).value
    priority := (priorityNormOf raw).value
    labels := if 0 < (labelsOf raw).length then labelsOf raw else []
    suggested_assignee :=
      if suggestedAssigneeOf raw ≠ "" then suggestedAssigneeOf raw else "Unassigned"
    confidence := round2 (confFinalOf raw ctx)
    citations :=
      if 0 < (citationsOf raw ctx).length then citationsOf raw ctx
      else if ctx.hasDocuments ∧ 0 < ctx.sourceDocIds.length then
        [{ document_id := ctx.sourceDocIds.headI, chunk_id := "inferred" }]
      else []
    citation_keys :=
      if 0 < (citationsOf raw ctx).length then
        (citationsOf raw ctx).map (fun c => c.document_id ++ ":" ++ c.chunk_id)
      else []
    stakeholders := if 0 < (stakeholdersOf raw).length then some (stakeholdersOf raw) else none
    suggested_dependencies :=
      if 0 < (suggestedDependenciesOf raw).length then some (suggestedDependenciesOf raw)
      else none
    is_derived := isDerivedOf raw
    derived_rationale := derivedRationaleOf raw
    readiness := readinessOf raw
    readiness_reason := readinessReasonOf raw
    source_docs := if 0 < ctx.sourceDocIds.length then some ctx.sourceDocIds else none
    source_mode := sourceModeOf ctx
    workspace_id := asString? (getField (rawAfterPromotionOf raw) "workspace_id")
    owner_uid := asString? (getField (rawAfterPromotionOf raw) "owner_uid")
    id := ticketIdOf raw freshId
    objectID := ticketIdOf raw freshId }

/-- The log updates performed for a kept (non-dropped) candidate, in source
order (lines 151-152, 171-175, 178-181, 202-209, 243-249, 258-262, 265-270,
273-277, 320-324). -/
def keptLogOf (raw : JSValue) (ctx : ValidationContext) (log : ValidationLog) :
    ValidationLog :=
  let log1 :=
    if wasPromotedOf raw then
      { log with promoted_to_decision := log.promoted_to_decision + 1,
                 reasons := log.reasons ++
                   ["promoted→decision: \"" ++ titleOf raw ++ "\" had " ++
                    toString (acInitialOf raw).length ++ " AC"] }
    else log
  let log2 :=
    if (typeNormOf raw).wasNormalized then
      { log1 with repaired := log1.repaired + 1,
                  reasons := log1.reasons ++
                    ["enum-repair: type \"" ++
                     jsToString (getField (rawAfterPromotionOf raw) "type") ++ "\"→\"" ++
                     typeOf raw ++ "\" for \"" ++ titleOf raw ++ "\""] }
    else log1
  let log3 :=
    if (priorityNormOf raw).wasNormalized then
      { log2 with repaired := log2.repaired + 1 }
    else log2
  let log4 :=
    if citationInjectedOf raw ctx then
      { log3 with citations_injected := log3.citations_injected + 1,
                  reasons := log3.reasons ++
                    ["citation-injected: \"" ++ titleOf raw ++
                     "\" had 0 citations in grounded mode"] }
    else log3
  let log5 :=
    if typeOf raw = "decision" ∧ hasPlaceholderEdgeCasesOf raw then
      { log4 with repaired := log4.repaired + 1,
                  reasons := log4.reasons ++
                    ["edge-cases-cleared: decision ticket had placeholder, replaced with empty array"] }
    else log4
  let log6 :=
    if typeOf raw = "decision" ∧ 0 < (openQuestionsOf raw).length then
      { log5 with repaired := log5.repaired + 1,
                  reasons := log5.reasons ++
                    ["confidence-capped: decision ticket with " ++
                     toString (openQuestionsOf raw).length ++
                     " open questions capped to 0.75"] }
    else log5
  let log7 :=
    if typeOf raw = "decision" then
      { log6 with repaired := log6.repaired + 1,
                  reasons := log6.reasons ++
                    ["confidence-adjusted: decision ticket range 0.4-0.75"] }
    else log6
  let log8 :=
    if isDerivedOf raw = some true then
      { log7 with repaired := log7.repaired + 1,
                  reasons := log7.reasons ++ ["confidence-reduced: derived ticket penalty"] }
    else log7
  if ((finalKnownEdgeCasesOf raw).length = 0 ∧ typeOf raw ≠ "decision") ∨
      (openQuestionsOf raw).length = 0 ∨ (setupRequirementsOf raw).length = 0 ∨
      (dependenciesOf raw).length = 0 ∨ (labelsOf raw).length = 0 ∨
      suggestedAssigneeOf raw = "" then
    { log8 with repaired := log8.repaired + 1,
                reasons := log8.reasons ++
                  ["filled-missing-fields: \"" ++ titleOf raw ++
                   "\" had empty canonical fields"] }
  else log8

/-- Source `validateSingleTicket` (lines 129-333).  Errors exactly when the
receiver of the first property read (`raw.title`, line 135) is
`null`/`undefined` — the `TypeError` of JS; returns `none` plus the drop-log
update when the title gate fails (lines 134-140); otherwise returns the
filled ticket and the accumulated log updates. -/
def validateSingleTicket (raw : JSValue) (ctx : ValidationContext)
    (log : ValidationLog) (freshId : String) :
    Except Unit (Option Ticket × ValidationLog) :=
  match raw with
  | .vNull => .error ()
  | .vUndefined => .error ()
  | _ =>
    if titleOf raw = "" then
      .ok (none, { log with dropped := log.dropped + 1,
                            reasons := log.reasons ++ ["dropped: missing title"] })
    else
      .ok (some (ticketOf raw ctx freshId), keptLogOf raw ctx log)

/-- The `for (const item of raw)` loop of `validateAndRepairTickets`
(source lines 109-114), threading the log and collecting non-null results;
`i` indexes the fresh-id generator. -/
def processItems (items : List JSValue) (ctx : ValidationContext)
    (log : ValidationLog) (gen : ℕ → String) (i : ℕ) :
    Except Unit (List Ticket × ValidationLog) :=
  match items with
  | [] => .ok ([], log)
  | item :: rest =>
    match validateSingleTicket item ctx log (gen i) with
    | .error e => .error e
    | .ok (t?, log') =>
      match processItems rest ctx log' gen (i + 1) with
      | .error e => .error e
      | .ok (ts, log'') =>
        .ok ((match t? with | some t => t :: ts | none => ts), log'')

/-- Source `validateAndRepairTickets` (lines 93-125). -/
def validateAndRepairTickets (raw : List JSValue) (ctx : ValidationContext)
    (gen : ℕ → String) : Except Unit ValidationResult :=
  let log0 : ValidationLog :=
    { total_input := raw.length, total_output := 0, repaired := 0, dropped := 0,
      promoted_to_decision := 0, citations_injected := 0, reasons := [] }
  match processItems raw ctx log0 gen 0 with
  | .error e => .error e
  | .ok (tickets, log1) =>
    .ok { tickets := tickets, log := { log1 with total_output := tickets.length } }

-- == Generic lemmas about the embedding ======================================

theorem jsRound_le {q : ℚ} {n : ℤ} (h : q ≤ n) : jsRound q ≤ n := by
  unfold jsRound
  have h1 : q + 1/2 ≤ (n : ℚ) + 1/2 := by linarith
  calc ⌊q + 1/2⌋ ≤ ⌊(n : ℚ) + 1/2⌋ := Int.floor_le_floor h1
    _ = n := by
        rw [show ((n : ℚ) + 1/2) = (1/2 : ℚ) + n by ring, Int.floor_add_int]
        norm_num

theorem le_jsRound {q : ℚ} {n : ℤ} (h : (n : ℚ) ≤ q) : n ≤ jsRound q := by
  unfold jsRound
  rw [Int.le_floor]
  linarith

/-- Rounding by `round2` does not cross an upper bound that is a whole number of
hundredths. -/
theorem round2_le {q : ℚ} {n : ℤ} (h : q ≤ (n : ℚ)/100) : round2 q ≤ (n : ℚ)/100 := by
  unfold round2
  have h1 : q * 100 ≤ (n : ℚ) := by nlinarith
  have h3 : ((jsRound (q * 100) : ℤ) : ℚ) ≤ (n : ℚ) := by exact_mod_cast jsRound_le h1
  linarith

/-- Rounding by `round2` does not cross a lower bound that is a whole number of
hundredths. -/
theorem le_round2 {q : ℚ} {n : ℤ} (h : (n : ℚ)/100 ≤ q) : (n : ℚ)/100 ≤ round2 q := by
  unfold round2
  have h1 : (n : ℚ) ≤ q * 100 := by nlinarith
  have h3 : ((n : ℤ) : ℚ) ≤ (jsRound (q * 100) : ℚ) := by exact_mod_cast le_jsRound h1
  linarith

/-- Evaluation rule for `round2` at concrete rationals. -/
theorem round2_eval {q r : ℚ} (n : ℤ) (h1 : (n : ℚ) ≤ q * 100 + 1/2)
    (h2 : q * 100 + 1/2 < n + 1) (h3 : (n : ℚ) = r * 100) : round2 q = r := by
  unfold round2 jsRound
  have : ⌊q * 100 + 1/2⌋ = n := by
    rw [Int.floor_eq_iff]
    exact ⟨h1, by linarith⟩
  rw [this]
  field_simp at h3 ⊢
  linarith



/-- After replacing the entries keyed `k` by `(k, x)`, a lookup of `k` finds
`(k, x)`, provided some entry was keyed `k`. -/
theorem find?_map_set {fs : List (String × JSValue)} {k : String} {x : JSValue}
    (hany : fs.any (fun p => p.1 = k) = true) :
    List.find? (fun p => decide (p.1 = k))
      (fs.map (fun p => if p.1 = k then (k, x) else p)) = some (k, x) := by
  induction fs with
  | nil => simp at hany
  | cons p ps ih =>
    by_cases hp : p.1 = k
    · simp [hp]
    · rw [List.any_cons] at hany
      rw [decide_eq_false hp, Bool.false_or] at hany
      simp only [List.map_cons, if_neg hp]
      rw [List.find?_cons_of_neg _ (by simpa using hp)]
      exact ih hany

/-- Appending `(k, x)` to a list with no entry keyed `k`: a lookup of `k`
finds `(k, x)`. -/
theorem find?_append_set {fs : List (String × JSValue)} {k : String} {x : JSValue}
    (hnone : fs.any (fun p => p.1 = k) = false) :
    List.find? (fun p => decide (p.1 = k)) (fs ++ [(k, x)]) = some (k, x) := by
  induction fs with
  | nil => simp
  | cons p ps ih =>
    rw [List.any_cons] at hnone
    simp only [Bool.or_eq_false_iff] at hnone
    obtain ⟨hp, hps⟩ := hnone
    simp only [decide_eq_false_iff_not] at hp
    rw [List.cons_append, List.find?_cons_of_neg _ (by simpa using hp)]
    exact ih hps

/-- Reading back the field just written by `setField` on an object. -/
theorem getField_setField (fs : List (String × JSValue)) (k : String) (x : JSValue) :
    getField (setField (.vObj fs) k x) k = x := by
  simp only [setField]
  split
  · next hany =>
    simp only [getField, find?_map_set hany]
  · next hany =>
    rw [Bool.not_eq_true] at hany
    simp only [getField, find?_append_set hany]

/-- Members of `toStringArray` are non-empty after trimming. -/
theorem mem_toStringArray_trim {raw : JSValue} {s : String}
    (h : s ∈ toStringArray raw) : 0 < (jsTrim s).length := by
  unfold toStringArray at h
  split at h
  · obtain ⟨v, _, hv⟩ := List.mem_filterMap.mp h
    cases v <;> simp only [Option.some.injEq, reduceCtorEq] at hv
    next s' =>
      split at hv
      · next hlen => exact (Option.some.injEq _ _ ▸ hv) ▸ hlen
      · exact absurd hv (by simp)
  · simp at h

/-- Evaluating `toStringArray` on an array of strings keeps exactly the trim-non-empty
ones. -/
theorem toStringArray_map_vStr (l : List String) :
    toStringArray (.vArr (l.map .vStr)) = l.filter (fun s => 0 < (jsTrim s).length) := by
  induction l with
  | nil => rfl
  | cons s rest ih =>
    unfold toStringArray at ih ⊢
    dsimp only at ih
    rw [List.filterMap_map] at ih
    simp only [List.map_cons, List.filterMap_cons, List.filter_cons]
    by_cases h : 0 < (jsTrim s).length
    · simp [h, ih]
    · simp [h, ih]

/-- A string whose first character is not whitespace trims to a non-empty
string. -/
theorem jsTrim_length_pos_of_head {s : String} {c : Char} {l : List Char}
    (hdata : s.data = c :: l) (hc : c.isWhitespace = false) :
    0 < (jsTrim s).length := by
  unfold jsTrim
  rw [hdata, List.dropWhile_cons, hc]
  simp only [Bool.false_eq_true, if_false]
  have hne : (List.dropWhile Char.isWhitespace (c :: l).reverse).reverse ≠ [] := by
    intro hnil
    rw [List.reverse_eq_nil_iff, List.dropWhile_eq_nil_iff] at hnil
    have := hnil c (by simp)
    rw [hc] at this
    exact Bool.false_ne_true this
  show 0 < (String.mk _).length
  rw [String.length]
  exact List.length_pos.mpr hne

/-- The `"[Needs clarification] "`-prefixed strings produced by decision
promotion are non-empty after trimming. -/
theorem jsTrim_needs_clarification_pos (a : String) :
    0 < (jsTrim ("[Needs clarification] " ++ a)).length := by
  refine jsTrim_length_pos_of_head (c := '[')
    (l := "Needs clarification] ".data ++ a.data) ?_ (by decide)
  rw [String.data_append]
  rfl

/-- Only proper objects can pass the title gate: every other receiver yields
`undefined` for `raw.title` and hence an empty title. -/
theorem titleOf_ne_empty_vObj {raw : JSValue} (h : titleOf raw ≠ "") :
    ∃ fs, raw = .vObj fs := by
  cases raw with
  | vObj fs => exact ⟨fs, rfl⟩
  | vNull => exact absurd rfl h
  | vUndefined => exact absurd rfl h
  | vBool b => exact absurd rfl h
  | vNum q => exact absurd rfl h
  | vStr s => exact absurd rfl h
  | vArr xs => exact absurd rfl h

/-- Source `movedAC` is just the initially extracted acceptance criteria. -/
theorem movedACOf_eq (raw : JSValue) : movedACOf raw = acInitialOf raw := by
  unfold movedACOf
  split
  · rfl
  · next h =>
    have : (acInitialOf raw).length = 0 := by omega
    exact (List.eq_nil_of_length_eq_zero this).symm

/-- Elimination for a kept candidate: the result is exactly `ticketOf` and
`keptLogOf`, and the title gate was passed. -/
theorem validateSingleTicket_ok_some {raw : JSValue} {ctx : ValidationContext}
    {log : ValidationLog} {fid : String} {t : Ticket} {log' : ValidationLog}
    (h : validateSingleTicket raw ctx log fid = .ok (some t, log')) :
    t = ticketOf raw ctx fid ∧ log' = keptLogOf raw ctx log ∧ titleOf raw ≠ "" := by
  unfold validateSingleTicket at h
  cases raw <;> dsimp only at h <;>
    first
      | exact absurd h (by simp)
      | (split at h
         · exact absurd h (by simp)
         · next hTitle =>
             rw [Except.ok.injEq, Prod.mk.injEq] at h
             obtain ⟨h1, h2⟩ := h
             exact ⟨(Option.some.injEq _ _ ▸ h1).symm, h2.symm, hTitle⟩)

/-- Elimination for a dropped candidate: the title gate failed and only the
drop counters changed. -/
theorem validateSingleTicket_ok_none {raw : JSValue} {ctx : ValidationContext}
    {log : ValidationLog} {fid : String} {log' : ValidationLog}
    (h : validateSingleTicket raw ctx log fid = .ok (none, log')) :
    titleOf raw = "" ∧
      log' = { log with dropped := log.dropped + 1,
                        reasons := log.reasons ++ ["dropped: missing title"] } := by
  unfold validateSingleTicket at h
  cases raw <;> dsimp only at h <;>
    first
      | exact absurd h (by simp)
      | (split at h
         · next hTitle =>
             rw [Except.ok.injEq, Prod.mk.injEq] at h
             exact ⟨hTitle, h.2.symm⟩
         · exact absurd h (by simp))

/-- The per-candidate log updates of a kept candidate never touch the
`dropped` counter. -/
theorem keptLogOf_dropped (raw : JSValue) (ctx : ValidationContext)
    (log : ValidationLog) : (keptLogOf raw ctx log).dropped = log.dropped := by
  unfold keptLogOf
  simp only [apply_ite ValidationLog.dropped]
  simp only [ite_self]

/-- The per-candidate log updates of a kept candidate never touch
`total_input`. -/
theorem keptLogOf_total_input (raw : JSValue) (ctx : ValidationContext)
    (log : ValidationLog) : (keptLogOf raw ctx log).total_input = log.total_input := by
  unfold keptLogOf
  simp only [apply_ite ValidationLog.total_input]
  simp only [ite_self]

/-- Projection lemma: `(ticketOf raw ctx fid).title` is the trimmed input title. -/
theorem ticketOf_title (raw : JSValue) (ctx : ValidationContext) (fid : String) :
    (ticketOf raw ctx fid).title = titleOf raw := rfl

/-- Invariant of the per-item loop: every emitted ticket is `ticketOf` of a
kept candidate, the `dropped` counter counts exactly the blank-title
candidates, the emitted list is as long as the list of non-blank-title
candidates, every kept candidate contributes a ticket carrying its trimmed
title, and `total_input` is never touched. -/
theorem processItems_ok {items : List JSValue} {ctx : ValidationContext}
    {log : ValidationLog} {gen : ℕ → String} {i : ℕ} {ts : List Ticket}
    {log' : ValidationLog}
    (h : processItems items ctx log gen i = .ok (ts, log')) :
    (∀ t ∈ ts, ∃ c ∈ items, ∃ fid, t = ticketOf c ctx fid ∧ titleOf c ≠ "") ∧
    log'.dropped = log.dropped + (items.filter (fun c => titleOf c = "")).length ∧
    ts.length = (items.filter (fun c => ¬ titleOf c = "")).length ∧
    (∀ c ∈ items, titleOf c ≠ "" → ∃ t ∈ ts, t.title = titleOf c) ∧
    log'.total_input = log.total_input := by
  induction items generalizing log i ts log' with
  | nil =>
    unfold processItems at h
    rw [Except.ok.injEq, Prod.mk.injEq] at h
    obtain ⟨h1, h2⟩ := h
    subst h1
    subst h2
    simp
  | cons item rest ih =>
    unfold processItems at h
    cases hv : validateSingleTicket item ctx log (gen i) with
    | error e => rw [hv] at h; exact absurd h (by simp)
    | ok pair =>
      rw [hv] at h
      obtain ⟨t?, l1⟩ := pair
      dsimp only at h
      cases hp : processItems rest ctx l1 gen (i + 1) with
      | error e => rw [hp] at h; exact absurd h (by simp)
      | ok pr =>
        rw [hp] at h
        obtain ⟨ts1, l2⟩ := pr
        dsimp only at h
        obtain ⟨hmem, hdrop, hlen, hcover, hinput⟩ := ih hp
        cases t? with
        | some t0 =>
          dsimp only at h
          rw [Except.ok.injEq, Prod.mk.injEq] at h
          obtain ⟨hts, hlog⟩ := h
          subst hts
          subst hlog
          obtain ⟨ht0, hl1, hTitle⟩ := validateSingleTicket_ok_some hv
          subst hl1
          have hfilter1 :
              (item :: rest).filter (fun c => titleOf c = "") =
              rest.filter (fun c => titleOf c = "") := by
            rw [List.filter_cons, if_neg (by simpa using hTitle)]
          have hfilter2 :
              (item :: rest).filter (fun c => ¬ titleOf c = "") =
              item :: rest.filter (fun c => ¬ titleOf c = "") := by
            rw [List.filter_cons, if_pos (by simpa using hTitle)]
          refine ⟨?_, ?_, ?_, ?_, ?_⟩
          · intro t ht
            rcases List.mem_cons.mp ht with rfl | hts1
            · exact ⟨item, List.mem_cons_self _ _, gen i, ht0, hTitle⟩
            · obtain ⟨c, hc, fid, hfid⟩ := hmem t hts1
              exact ⟨c, List.mem_cons_of_mem _ hc, fid, hfid⟩
          · rw [hfilter1, hdrop, keptLogOf_dropped]
          · rw [hfilter2]
            simpa using hlen
          · intro c hc hct
            rcases List.mem_cons.mp hc with rfl | hcr
            · exact ⟨t0, List.mem_cons_self _ _, by rw [ht0, ticketOf_title]⟩
            · obtain ⟨t, ht, htt⟩ := hcover c hcr hct
              exact ⟨t, List.mem_cons_of_mem _ ht, htt⟩
          · rw [hinput, keptLogOf_total_input]
        | none =>
          dsimp only at h
          rw [Except.ok.injEq, Prod.mk.injEq] at h
          obtain ⟨hts, hlog⟩ := h
          subst hts
          subst hlog
          obtain ⟨hTitle, hl1⟩ := validateSingleTicket_ok_none hv
          subst hl1
          have hfilter1 :
              (item :: rest).filter (fun c => titleOf c = "") =
              item :: rest.filter (fun c => titleOf c = "") := by
            rw [List.filter_cons, if_pos (by simpa using hTitle)]
          have hfilter2 :
              (item :: rest).filter (fun c => ¬ titleOf c = "") =
              rest.filter (fun c => ¬ titleOf c = "") := by
            rw [List.filter_cons, if_neg (by simpa using hTitle)]
          refine ⟨?_, ?_, ?_, ?_, ?_⟩
          · intro t ht
            obtain ⟨c, hc, fid, hfid⟩ := hmem t ht
            exact ⟨c, List.mem_cons_of_mem _ hc, fid, hfid⟩
          · rw [hfilter1, hdrop]
            simp only [List.length_cons]
            omega
          · rw [hfilter2]
            exact hlen
          · intro c hc hct
            rcases List.mem_cons.mp hc with rfl | hcr
            · exact absurd hTitle hct
            · exact hcover c hcr hct
          · exact hinput

/-- Elimination for the batch entry point. -/
theorem validateAndRepairTickets_ok {raw : List JSValue} {ctx : ValidationContext}
    {gen : ℕ → String} {res : ValidationResult}
    (h : validateAndRepairTickets raw ctx gen = .ok res) :
    ∃ log1,
      processItems raw ctx
        { total_input := raw.length, total_output := 0, repaired := 0, dropped := 0,
          promoted_to_decision := 0, citations_injected := 0, reasons := [] } gen 0 =
        .ok (res.tickets, log1) ∧
      res.log = { log1 with total_output := res.tickets.length } := by
  unfold validateAndRepairTickets at h
  dsimp only at h
  cases hp : processItems raw ctx
      { total_input := raw.length, total_output := 0, repaired := 0, dropped := 0,
        promoted_to_decision := 0, citations_injected := 0, reasons := [] } gen 0 with
  | error e => rw [hp] at h; exact absurd h (by simp)
  | ok pr =>
    rw [hp] at h
    obtain ⟨ts, l1⟩ := pr
    dsimp only at h
    rw [Except.ok.injEq] at h
    refine ⟨l1, ?_, ?_⟩
    · rw [← h]
    · rw [← h]

/-- Splitting a list by a decidable predicate preserves the length. -/
theorem length_filter_add_length_filter_not (l : List JSValue)
    (p : JSValue → Prop) [DecidablePred p] :
    (l.filter (fun a => p a)).length + (l.filter (fun a => ¬ p a)).length = l.length := by
  induction l with
  | nil => rfl
  | cons a rest ih =>
    by_cases hpa : p a
    · rw [List.filter_cons, List.filter_cons, if_pos (by simpa using hpa),
          if_neg (by simpa using hpa)]
      simp only [List.length_cons]
      omega
    · rw [List.filter_cons, List.filter_cons, if_neg (by simpa using hpa),
          if_pos (by simpa using hpa)]
      simp only [List.length_cons]
      omega

/-- Projection lemma: `(ticketOf raw ctx fid).type` is the final normalized/promoted type. -/
theorem ticketOf_type (raw : JSValue) (ctx : ValidationContext) (fid : String) :
    (ticketOf raw ctx fid).type = typeOf raw := rfl

/-- Projection lemma: `(ticketOf raw ctx fid).confidence` is the rounded final confidence. -/
theorem ticketOf_confidence (raw : JSValue) (ctx : ValidationContext) (fid : String) :
    (ticketOf raw ctx fid).confidence = round2 (confFinalOf raw ctx) := rfl

/-- Projection lemma: `(ticketOf raw ctx fid).is_derived` is the narrowed `is_derived` flag. -/
theorem ticketOf_is_derived (raw : JSValue) (ctx : ValidationContext) (fid : String) :
    (ticketOf raw ctx fid).is_derived = isDerivedOf raw := rfl

/-- In a document-backed run with at least one source id, every ticket the
pipeline builds carries at least one citation. -/
theorem ticketOf_citations_ne_nil {c : JSValue} {ctx : ValidationContext} (fid : String)
    (hd : ctx.hasDocuments = true) (hs : ctx.sourceDocIds ≠ []) :
    (ticketOf c ctx fid).citations ≠ [] := by
  show (if 0 < (citationsOf c ctx).length then citationsOf c ctx
        else if ctx.hasDocuments ∧ 0 < ctx.sourceDocIds.length then
          [{ document_id := ctx.sourceDocIds.headI, chunk_id := "inferred" }]
        else []) ≠ []
  split
  · next hpos =>
    intro hnil
    rw [hnil] at hpos
    simp at hpos
  · rw [if_pos ⟨by rw [hd], List.length_pos.mpr hs⟩]
    simp

/-- The `citation_keys` of a built ticket are derived from its final
`citations` list: the structural-defaulting backstop for citations can in
fact never fire (its guard contradicts emptiness of the post-grounding
list), so both fields are computed from the same list. -/
theorem ticketOf_citation_keys (c : JSValue) (ctx : ValidationContext) (fid : String) :
    (ticketOf c ctx fid).citation_keys =
      (ticketOf c ctx fid).citations.map
        (fun ci => ci.document_id ++ ":" ++ ci.chunk_id) := by
  show (if 0 < (citationsOf c ctx).length then
          (citationsOf c ctx).map (fun ci => ci.document_id ++ ":" ++ ci.chunk_id)
        else []) =
      (if 0 < (citationsOf c ctx).length then citationsOf c ctx
        else if ctx.hasDocuments ∧ 0 < ctx.sourceDocIds.length then
          [{ document_id := ctx.sourceDocIds.headI, chunk_id := "inferred" }]
        else []).map (fun ci => ci.document_id ++ ":" ++ ci.chunk_id)
  by_cases hpos : 0 < (citationsOf c ctx).length
  · rw [if_pos hpos, if_pos hpos]
  · rw [if_neg hpos, if_neg hpos]
    have hnil : citationsOf c ctx = [] := by
      rcases List.eq_nil_or_concat (citationsOf c ctx) with hn | ⟨l, a, hc⟩
      · exact hn
      · exact absurd (by rw [hc]; simp) hpos
    have hback : ¬ (ctx.hasDocuments ∧ 0 < ctx.sourceDocIds.length) := by
      rintro ⟨hd, hs⟩
      by_cases hinj : citationInjectedOf c ctx = true
      · have : citationsOf c ctx =
            [{ document_id := ctx.sourceDocIds.headI, chunk_id := "inferred" }] := by
          unfold citationsOf
          rw [if_pos hinj]
        rw [hnil] at this
        exact absurd this (by simp)
      · have hparsed : citationsParsedOf c = [] := by
          unfold citationsOf at hnil
          rw [if_neg hinj] at hnil
          exact hnil
        apply hinj
        unfold citationInjectedOf
        rw [hparsed]
        unfold sourceModeOf
        rw [if_pos hd]
        simp [hs]
    rw [if_neg hback]
    rfl

/-- Confidence bounds for decision tickets.  The clamp of Rule 1b runs
before the `is_derived` penalty, so the final (rounded) confidence of a
decision ticket lies in `[0.4, 0.75]` when no derived penalty applies, and
in `[0.3, 0.65]` when it does. -/
theorem decision_confidence_bounds {c : JSValue} {ctx : ValidationContext} (fid : String)
    (hd : typeOf c = "decision") :
    (isDerivedOf c = some true →
      (0.3 : ℚ) ≤ (ticketOf c ctx fid).confidence ∧
        (ticketOf c ctx fid).confidence ≤ 0.65) ∧
    (isDerivedOf c ≠ some true →
      (0.4 : ℚ) ≤ (ticketOf c ctx fid).confidence ∧
        (ticketOf c ctx fid).confidence ≤ 0.75) := by
  have hB1 : (0.4 : ℚ) ≤ confAfterRule1bOf c ctx := by
    unfold confAfterRule1bOf
    rw [if_pos hd]
    exact le_max_right _ _
  have hB2 : confAfterRule1bOf c ctx ≤ 0.75 := by
    unfold confAfterRule1bOf
    rw [if_pos hd]
    exact max_le (min_le_right _ _) (by norm_num)
  constructor
  · intro hder
    have hconf : (ticketOf c ctx fid).confidence =
        round2 (max 0 (confAfterRule1bOf c ctx - 0.1)) := by
      rw [ticketOf_confidence]
      unfold confFinalOf
      rw [if_pos hder]
    constructor
    · rw [hconf]
      have h30 : ((30 : ℤ) : ℚ)/100 ≤ max 0 (confAfterRule1bOf c ctx - 0.1) := by
        have hm := le_max_right (0 : ℚ) (confAfterRule1bOf c ctx - 0.1)
        push_cast
        linarith
      calc (0.3 : ℚ) = ((30 : ℤ) : ℚ)/100 := by norm_num
        _ ≤ round2 (max 0 (confAfterRule1bOf c ctx - 0.1)) := le_round2 h30
    · rw [hconf]
      have h65 : max 0 (confAfterRule1bOf c ctx - 0.1) ≤ ((65 : ℤ) : ℚ)/100 := by
        apply max_le
        · norm_num
        · push_cast
          linarith
      calc round2 (max 0 (confAfterRule1bOf c ctx - 0.1))
          ≤ ((65 : ℤ) : ℚ)/100 := round2_le h65
        _ = 0.65 := by norm_num
  · intro hder
    have hconf : (ticketOf c ctx fid).confidence = round2 (confAfterRule1bOf c ctx) := by
      rw [ticketOf_confidence]
      unfold confFinalOf
      rw [if_neg hder]
    constructor
    · rw [hconf]
      calc (0.4 : ℚ) = ((40 : ℤ) : ℚ)/100 := by norm_num
        _ ≤ round2 (confAfterRule1bOf c ctx) := le_round2 (by push_cast; linarith)
    · rw [hconf]
      calc round2 (confAfterRule1bOf c ctx)
          ≤ ((75 : ℤ) : ℚ)/100 := round2_le (by push_cast; linarith)
        _ = 0.75 := by norm_num

/-- Projection lemma: `(ticketOf raw ctx fid).open_questions` is the (post-promotion) open
questions list: the structural default changes nothing. -/
theorem ticketOf_open_questions (raw : JSValue) (ctx : ValidationContext) (fid : String) :
    (ticketOf raw ctx fid).open_questions = openQuestionsOf raw := by
  show (if 0 < (openQuestionsOf raw).length then openQuestionsOf raw else []) = _
  split
  · rfl
  · next h =>
    have hz : (openQuestionsOf raw).length = 0 := by omega
    exact (List.eq_nil_of_length_eq_zero hz).symm

/-- After decision promotion, the mutated `open_questions` read back as the
pre-existing open questions followed by the prefixed moved criteria (every
entry survives the `toStringArray` filter). -/
theorem openQuestionsOf_promoted {raw : JSValue} (hp : wasPromotedOf raw = true)
    (ht : titleOf raw ≠ "") :
    openQuestionsOf raw =
      existingOQOf raw ++
        (acInitialOf raw).map (fun a => "[Needs clarification] " ++ a) := by
  obtain ⟨fs, rfl⟩ := titleOf_ne_empty_vObj ht
  unfold openQuestionsOf rawAfterPromotionOf
  rw [if_pos hp, movedACOf_eq, getField_setField, toStringArray_map_vStr]
  rw [List.filter_eq_self.mpr]
  intro s hs
  rcases List.mem_append.mp hs with h1 | h2
  · unfold existingOQOf at h1
    simpa using mem_toStringArray_trim h1
  · obtain ⟨a, -, rfl⟩ := List.mem_map.mp h2
    simpa using jsTrim_needs_clarification_pos a

-- == Concrete inputs used by the claim theorems ==============================

/-- A validation context without documents. -/
def ctxEmpty : ValidationContext := ⟨[], false⟩

/-- A document-backed validation context with one source document. -/
def ctxDocs : ValidationContext := ⟨["doc_1"], true⟩

/-- A fixed fresh-id generator standing in for `crypto.randomUUID`. -/
def gen0 : ℕ → String := fun _ => "fresh-id"

/-- C4 (code_bug). Claim: `validateAndRepairTickets` returns a
`{tickets, log}` result and never throws, for input elements of any shape
including `null`.  In fact the very first statement of
`validateSingleTicket` reads `raw.title`, and a property read on `null`
throws a `TypeError` in JS, so the batch call on `[null]` throws instead of
returning: in the embedding the run yields an error, not a result. -/
theorem c4_null_candidate_throws :
    validateAndRepairTickets [JSValue.vNull] ctxEmpty gen0 = .error () := rfl

/-- C2: a candidate whose `estimated_effort` is already exactly the
canonical value `"M"`, with everything else canonical as well. -/
def c2Candidate : JSValue :=
  .vObj [("title", .vStr "T"), ("type", .vStr "task"), ("priority", .vStr "medium"),
         ("estimated_effort", .vStr "M"),
         ("acceptance_criteria", .vArr [.vStr "A", .vStr "B"]),
         ("confidence", .vNum 0.75)]

/-- C2 (code_bug). Claim: a raw value that is already exactly a canonical
enum value incurs no confidence penalty (flag `wasNormalized` false).  The
code computes the flag as `lower !== raw` on an alias hit, and the canonical
effort values are upper-case while the alias keys are lower-case, so
`"M"` hits the alias `"m"` with flag `true` — the dead case-sensitive check
of `normalizeEnum` never fires for them — and the 0.1 effort penalty is
applied to an already-canonical value: the output confidence drops from the
raw 0.75 to 0.65 even though the output `estimated_effort` is the unchanged
`"M"`. -/
theorem c2_canonical_effort_value_penalized :
    normalizeEnum (.vStr "M") EFFORT_ALIASES "M" = ⟨"M", true⟩ ∧
    (validateAndRepairTickets [c2Candidate] ctxEmpty gen0).toOption.map
      (fun r => r.tickets.map (fun t => (t.estimated_effort, t.confidence))) =
      some [("M", 0.65)] ∧
    (0.65 : ℚ) ≠ 0.75 := by
  refine ⟨rfl, ?_, by norm_num⟩
  norm_num +decide [validateAndRepairTickets, processItems, validateSingleTicket, ticketOf,
    titleOf, acInitialOf, wasPromotedOf, existingOQOf, movedACOf, acOf, rawAfterPromotionOf,
    typeNormOf, typeOf, priorityNormOf, effortNormOf, effortWasInferredOf, confidencePenaltyOf,
    confInitialOf, confAfterPromotionCapOf, confAfterPenaltyOf, citationsParsedOf, sourceModeOf,
    citationInjectedOf, citationsOf, confAfterGroundingOf, confAfterRule1Of, confAfterRule1bOf,
    confFinalOf, isDerivedOf, openQuestionsOf, normalizeEnum, normalizeType, toStringArray,
    parseCitations, getField, setField, asString?, asNumber?, asBool?, truthy, isJsObject,
    jsNullish, jsTrim, jsToLower, TYPE_ALIASES, EFFORT_ALIASES, PRIORITY_ALIASES,
    List.dropWhile, min_def, max_def, c2Candidate, ctxEmpty, gen0, Except.toOption]
  exact round2_eval 65 (by norm_num) (by norm_num) (by norm_num)

/-- C3: a fully schema-complete, already-normalized ticket (carrying its own
`id`/`objectID`), exactly as the canonical schema prescribes. -/
def c3Candidate : JSValue :=
  .vObj [("id", .vStr "t1"), ("objectID", .vStr "t1"),
         ("title", .vStr "T"), ("description", .vStr ""),
         ("type", .vStr "task"),
         ("acceptance_criteria", .vArr [.vStr "A", .vStr "B"]),
         ("known_edge_cases", .vArr [.vStr "Handle basic success case"]),
         ("open_questions", .vArr []),
         ("setup_requirements", .vArr []),
         ("dependencies", .vArr []),
         ("estimated_effort", .vStr "M"), ("priority", .vStr "medium"),
         ("labels", .vArr []),
         ("suggested_assignee", .vStr "Unassigned"),
         ("confidence", .vNum 0.75), ("citations", .vArr [])]

/-- C3 (code_bug). Claim: running a fully schema-complete, already-normalized
ticket through the pipeline returns it unchanged (and a second run is
idempotent).  In fact the canonical effort value `"M"` is wrongly flagged as
normalized (see C2), so every run subtracts the 0.1 effort penalty: the run
maps the input confidence 0.75 to 0.65 — the output is not identical to the
input, and repeated runs keep drifting. -/
theorem c3_revalidation_changes_confidence :
    asNumber? (getField c3Candidate "confidence") = some 0.75 ∧
    (validateAndRepairTickets [c3Candidate] ctxEmpty gen0).toOption.map
      (fun r => r.tickets.map (fun t => (t.id, t.title, t.estimated_effort, t.confidence))) =
      some [("t1", "T", "M", 0.65)] ∧
    (0.65 : ℚ) ≠ 0.75 := by
  refine ⟨rfl, ?_, by norm_num⟩
  norm_num +decide [validateAndRepairTickets, processItems, validateSingleTicket, ticketOf,
    titleOf, acInitialOf, wasPromotedOf, existingOQOf, movedACOf, acOf, rawAfterPromotionOf,
    typeNormOf, typeOf, priorityNormOf, effortNormOf, effortWasInferredOf, confidencePenaltyOf,
    confInitialOf, confAfterPromotionCapOf, confAfterPenaltyOf, citationsParsedOf, sourceModeOf,
    citationInjectedOf, citationsOf, confAfterGroundingOf, confAfterRule1Of, confAfterRule1bOf,
    confFinalOf, isDerivedOf, openQuestionsOf, ticketIdOf, normalizeEnum, normalizeType,
    toStringArray, parseCitations, getField, setField, asString?, asNumber?, asBool?, truthy,
    isJsObject, jsNullish, jsTrim, jsToLower, TYPE_ALIASES, EFFORT_ALIASES, PRIORITY_ALIASES,
    List.dropWhile, min_def, max_def, c3Candidate, ctxEmpty, gen0, Except.toOption]
  exact round2_eval 65 (by norm_num) (by norm_num) (by norm_num)

/-- C5: the worked example of the spec (scenario 3). -/
def c5Candidate : JSValue :=
  .vObj [("title", .vStr "Fix bug"), ("type", .vStr "FIX"), ("priority", .vStr "urgent"),
         ("estimated_effort", .vStr "sm"),
         ("acceptance_criteria", .vArr [.vStr "A", .vStr "B"]),
         ("citations", .vArr [.vObj [("document_id", .vStr "doc_2"),
                                     ("chunk_id", .vStr "c1")]])]

/-- C5 (corrected), counterexample. Claim: the example input maps
`estimated_effort: "sm"` to `"S"`.  In fact `"sm"` is not a key of
`EFFORT_ALIASES` (only `"s"` and `"small"` are), so it falls through to the
`"M"` fallback. -/
theorem c5_effort_counterexample :
    (validateAndRepairTickets [c5Candidate] ctxEmpty gen0).toOption.map
      (fun r => r.tickets.map (fun t => t.estimated_effort)) = some ["M"] ∧
    ("M" : String) ≠ "S" := by
  refine ⟨by decide, by decide⟩

/-- C5 (corrected), amended. The example input yields `type: "bug"`,
`priority: "critical"`, `estimated_effort: "M"` (the unrecognized `"sm"`
falls back to `"M"` and incurs the effort penalty), and confidence 0.6 —
reduced from the 0.75 default by the 0.05 type penalty (case-changed
`"FIX"`) and the 0.1 effort penalty; `"urgent"` is already lower-case so the
priority penalty does not fire. -/
theorem c5_example_amended :
    (validateAndRepairTickets [c5Candidate] ctxEmpty gen0).toOption.map
      (fun r => r.tickets.map
        (fun t => (t.type, t.priority, t.estimated_effort, t.confidence))) =
      some [("bug", "critical", "M", 0.6)] ∧
    (0.6 : ℚ) < 0.75 := by
  refine ⟨?_, by norm_num⟩
  norm_num +decide [validateAndRepairTickets, processItems, validateSingleTicket, ticketOf,
    titleOf, acInitialOf, wasPromotedOf, existingOQOf, movedACOf, acOf, rawAfterPromotionOf,
    typeNormOf, typeOf, priorityNormOf, effortNormOf, effortWasInferredOf, confidencePenaltyOf,
    confInitialOf, confAfterPromotionCapOf, confAfterPenaltyOf, citationsParsedOf, sourceModeOf,
    citationInjectedOf, citationsOf, confAfterGroundingOf, confAfterRule1Of, confAfterRule1bOf,
    confFinalOf, isDerivedOf, openQuestionsOf, normalizeEnum, normalizeType, toStringArray,
    parseCitations, getField, setField, asString?, asNumber?, asBool?, truthy, isJsObject,
    jsNullish, jsTrim, jsToLower, TYPE_ALIASES, EFFORT_ALIASES, PRIORITY_ALIASES,
    List.dropWhile, min_def, max_def, c5Candidate, ctxEmpty, gen0, Except.toOption]
  exact round2_eval 60 (by norm_num) (by norm_num) (by norm_num)

/-- C1: a candidate that is promoted to a decision ticket and carries
`is_derived: true`. -/
def c1Derived : JSValue :=
  .vObj [("title", .vStr "T"), ("is_derived", .vBool true)]

/-- C1 (corrected), counterexample. Claim: every decision ticket leaves the
pipeline with confidence in `[0.4, 0.75]` after all penalties, including the
`is_derived` penalty.  In fact the `[0.4, 0.75]` clamp runs before the
`is_derived` penalty: for `{title: "T", is_derived: true}` the confidence is
0.6 (promotion cap) − 0.18 (enum penalties) = 0.42, clamped to 0.42, and
then − 0.1 (derived penalty) = 0.32 < 0.4. -/
theorem c1_decision_confidence_below_min :
    (validateAndRepairTickets [c1Derived] ctxEmpty gen0).toOption.map
      (fun r => r.tickets.map (fun t => (t.type, t.confidence))) =
      some [("decision", 0.32)] ∧
    ¬ ((0.4 : ℚ) ≤ 0.32) := by
  refine ⟨?_, by norm_num⟩
  norm_num +decide [validateAndRepairTickets, processItems, validateSingleTicket, ticketOf,
    titleOf, acInitialOf, wasPromotedOf, existingOQOf, movedACOf, acOf, rawAfterPromotionOf,
    typeNormOf, typeOf, priorityNormOf, effortNormOf, effortWasInferredOf, confidencePenaltyOf,
    confInitialOf, confAfterPromotionCapOf, confAfterPenaltyOf, citationsParsedOf, sourceModeOf,
    citationInjectedOf, citationsOf, confAfterGroundingOf, confAfterRule1Of, confAfterRule1bOf,
    confFinalOf, isDerivedOf, openQuestionsOf, normalizeEnum, normalizeType, toStringArray,
    parseCitations, getField, setField, asString?, asNumber?, asBool?, truthy, isJsObject,
    jsNullish, jsTrim, jsToLower, TYPE_ALIASES, EFFORT_ALIASES, PRIORITY_ALIASES,
    List.dropWhile, min_def, max_def, c1Derived, ctxEmpty, gen0, Except.toOption]
  exact round2_eval 32 (by norm_num) (by norm_num) (by norm_num)

/-- C1 (corrected), amended. For every ticket returned by
`validateAndRepairTickets` whose final type is `"decision"`, the confidence
lies in `[0.4, 0.75]` before the `is_derived` penalty; since that penalty is
applied after the clamp, the final rounded confidence lies in `[0.4, 0.75]`
when `is_derived` is not `true`, and in `[0.3, 0.65]` when it is. -/
theorem c1_decision_confidence_range_amended {raw : List JSValue}
    {ctx : ValidationContext} {gen : ℕ → String} {res : ValidationResult} {t : Ticket}
    (h : validateAndRepairTickets raw ctx gen = .ok res) (ht : t ∈ res.tickets)
    (hd : t.type = "decision") :
    (t.is_derived = some true →
      (0.3 : ℚ) ≤ t.confidence ∧ t.confidence ≤ 0.65) ∧
    (t.is_derived ≠ some true →
      (0.4 : ℚ) ≤ t.confidence ∧ t.confidence ≤ 0.75) := by
  obtain ⟨log1, hp, -⟩ := validateAndRepairTickets_ok h
  obtain ⟨hmem, -, -, -, -⟩ := processItems_ok hp
  obtain ⟨c, -, fid, rfl, -⟩ := hmem t ht
  rw [ticketOf_type] at hd
  rw [ticketOf_is_derived]
  exact decision_confidence_bounds fid hd

/-- C1: a candidate promoted to a decision ticket, without `is_derived`. -/
def c1Promoted : JSValue := .vObj [("title", .vStr "T")]

/-- C1: the batch result for `c1Promoted`. -/
def c1Res : ValidationResult :=
  match validateAndRepairTickets [c1Promoted] ctxEmpty gen0 with
  | .ok r => r
  | .error _ => ⟨[], ⟨0, 0, 0, 0, 0, 0, []⟩⟩

/-- C1, witness for the amended theorem: the promoted decision ticket of
`c1Promoted` (not derived) has confidence within `[0.4, 0.75]`. -/
theorem c1_decision_confidence_range_amended_witness :
    (0.4 : ℚ) ≤ (ticketOf c1Promoted ctxEmpty "fresh-id").confidence ∧
      (ticketOf c1Promoted ctxEmpty "fresh-id").confidence ≤ 0.75 :=
  (c1_decision_confidence_range_amended
    (show validateAndRepairTickets [c1Promoted] ctxEmpty gen0 = .ok c1Res from rfl)
    (List.mem_singleton.mpr rfl) rfl).2 (by decide)

/-- C6 (confirmed). For every candidate that passes the title gate but has
fewer than 2 non-empty acceptance criteria, the produced ticket has type
`"decision"`, its acceptance criteria are exactly the two fixed
placeholders, and its open questions are the pre-existing open questions
followed by every originally-supplied criterion prefixed with
`"[Needs clarification] "`. -/
theorem c6_ac_promotion {raw : JSValue} {ctx : ValidationContext}
    {log : ValidationLog} {fid : String} {t : Ticket} {log' : ValidationLog}
    (h : validateSingleTicket raw ctx log fid = .ok (some t, log'))
    (hac : (toStringArray (getField raw "acceptance_criteria")).length < 2) :
    t.type = "decision" ∧
    t.acceptance_criteria =
      ["Document the decision outcome",
       "Communicate decision to affected stakeholders"] ∧
    t.open_questions =
      toStringArray (getField raw "open_questions") ++
        (toStringArray (getField raw "acceptance_criteria")).map
          (fun a => "[Needs clarification] " ++ a) := by
  obtain ⟨rfl, -, hTitle⟩ := validateSingleTicket_ok_some h
  have hp : wasPromotedOf raw = true := by
    unfold wasPromotedOf acInitialOf
    exact decide_eq_true hac
  refine ⟨?_, ?_, ?_⟩
  · rw [ticketOf_type]
    unfold typeOf
    rw [if_pos hp]
  · have hAC : acOf raw =
        ["Document the decision outcome",
         "Communicate decision to affected stakeholders"] := by
      unfold acOf
      rw [if_pos hp]
    show (if 2 ≤ (acOf raw).length then acOf raw
          else ["Complete implementation", "Verify behavior meets requirements"]) = _
    rw [hAC]
    rfl
  · rw [ticketOf_open_questions, openQuestionsOf_promoted hp hTitle]
    rfl

/-- C6: a candidate with a single acceptance criterion and a pre-existing
open question. -/
def c6Candidate : JSValue :=
  .vObj [("title", .vStr "Add login"), ("type", .vStr "feature"),
         ("acceptance_criteria", .vArr [.vStr "Works"]),
         ("open_questions", .vArr [.vStr "Which provider?"])]

/-- C6: an arbitrary incoming log for the witness. -/
def c6Log : ValidationLog := ⟨1, 0, 0, 0, 0, 0, []⟩

/-- C6, witness: the promotion scenario of the spec evaluated at a concrete
candidate with one criterion and one pre-existing open question. -/
theorem c6_ac_promotion_witness :
    (ticketOf c6Candidate ctxDocs "id-1").type = "decision" ∧
    (ticketOf c6Candidate ctxDocs "id-1").acceptance_criteria =
      ["Document the decision outcome",
       "Communicate decision to affected stakeholders"] ∧
    (ticketOf c6Candidate ctxDocs "id-1").open_questions =
      toStringArray (getField c6Candidate "open_questions") ++
        (toStringArray (getField c6Candidate "acceptance_criteria")).map
          (fun a => "[Needs clarification] " ++ a) :=
  c6_ac_promotion
    (show validateSingleTicket c6Candidate ctxDocs c6Log "id-1" =
      .ok (some (ticketOf c6Candidate ctxDocs "id-1"),
           keptLogOf c6Candidate ctxDocs c6Log) from rfl)
    (by decide)

/-- C7 (confirmed). If the context is document-backed
(`hasDocuments = true`) with a non-empty `sourceDocIds`, every returned
ticket has at least one citation. -/
theorem c7_grounding_invariant {raw : List JSValue} {ctx : ValidationContext}
    {gen : ℕ → String} {res : ValidationResult}
    (h : validateAndRepairTickets raw ctx gen = .ok res)
    (hd : ctx.hasDocuments = true) (hs : ctx.sourceDocIds ≠ []) :
    ∀ t ∈ res.tickets, t.citations ≠ [] := by
  intro t ht
  obtain ⟨log1, hp, -⟩ := validateAndRepairTickets_ok h
  obtain ⟨hmem, -, -, -, -⟩ := processItems_ok hp
  obtain ⟨c, -, fid, rfl, -⟩ := hmem t ht
  exact ticketOf_citations_ne_nil fid hd hs

/-- C7: a candidate without citations, in a grounded run. -/
def c7Candidate : JSValue := .vObj [("title", .vStr "T")]

/-- C7: the batch result for `c7Candidate` under `ctxDocs`. -/
def c7Res : ValidationResult :=
  match validateAndRepairTickets [c7Candidate] ctxDocs gen0 with
  | .ok r => r
  | .error _ => ⟨[], ⟨0, 0, 0, 0, 0, 0, []⟩⟩

/-- C7, witness: in the grounded one-document run the ticket produced for
the citation-less concrete candidate has a citation. -/
theorem c7_grounding_invariant_witness :
    (ticketOf c7Candidate ctxDocs "fresh-id").citations ≠ [] :=
  c7_grounding_invariant
    (show validateAndRepairTickets [c7Candidate] ctxDocs gen0 = .ok c7Res from rfl)
    rfl (by decide) (ticketOf c7Candidate ctxDocs "fresh-id")
    (List.mem_singleton.mpr rfl)

/-- C8 (confirmed). A candidate contributes a ticket with its trimmed title
iff its title is a string that is non-empty after trimming; the `dropped`
counter counts exactly the candidates failing this gate and the output
length counts exactly those passing it — dropping is the only exclusion. -/
theorem c8_title_invariant {raw : List JSValue} {ctx : ValidationContext}
    {gen : ℕ → String} {res : ValidationResult}
    (h : validateAndRepairTickets raw ctx gen = .ok res) :
    (∀ c ∈ raw, (titleOf c ≠ "" ↔ ∃ t ∈ res.tickets, t.title = titleOf c)) ∧
    res.log.dropped = (raw.filter (fun c => titleOf c = "")).length ∧
    res.tickets.length = (raw.filter (fun c => ¬ titleOf c = "")).length := by
  obtain ⟨log1, hp, hlog⟩ := validateAndRepairTickets_ok h
  obtain ⟨hmem, hdrop, hlen, hcover, -⟩ := processItems_ok hp
  refine ⟨?_, ?_, ?_⟩
  · intro c hc
    constructor
    · exact fun hct => hcover c hc hct
    · rintro ⟨t, ht, htt⟩ hblank
      obtain ⟨c', -, fid, ht', hct'⟩ := hmem t ht
      apply hct'
      have h1 : t.title = "" := by rw [htt, hblank]
      rw [ht', ticketOf_title] at h1
      exact h1
  · rw [hlog]
    show log1.dropped = _
    rw [hdrop]
    simp
  · exact hlen

/-- C8: a batch with one titled and one blank-titled candidate. -/
def c8Batch : List JSValue :=
  [.vObj [("title", .vStr "Keep me")], .vObj [("title", .vStr "   ")]]

/-- C8: the batch result for `c8Batch`. -/
def c8Res : ValidationResult :=
  match validateAndRepairTickets c8Batch ctxEmpty gen0 with
  | .ok r => r
  | .error _ => ⟨[], ⟨0, 0, 0, 0, 0, 0, []⟩⟩

/-- C8, witness: the counters of the concrete two-candidate batch match the
title-gate filters. -/
theorem c8_title_invariant_witness :
    c8Res.log.dropped = (c8Batch.filter (fun c => titleOf c = "")).length ∧
    c8Res.tickets.length = (c8Batch.filter (fun c => ¬ titleOf c = "")).length := by
  have h := c8_title_invariant
    (show validateAndRepairTickets c8Batch ctxEmpty gen0 = .ok c8Res from rfl)
  exact ⟨h.2.1, h.2.2⟩

/-- C9 (confirmed). Every returned ticket derives `citation_keys` from its
final citations list, element for element (the structural-defaulting
backstop for citations can never fire, so the two fields always agree). -/
theorem c9_citation_keys_derived {raw : List JSValue} {ctx : ValidationContext}
    {gen : ℕ → String} {res : ValidationResult}
    (h : validateAndRepairTickets raw ctx gen = .ok res) :
    ∀ t ∈ res.tickets,
      t.citation_keys =
        t.citations.map (fun ci => ci.document_id ++ ":" ++ ci.chunk_id) := by
  intro t ht
  obtain ⟨log1, hp, -⟩ := validateAndRepairTickets_ok h
  obtain ⟨hmem, -, -, -, -⟩ := processItems_ok hp
  obtain ⟨c, -, fid, rfl, -⟩ := hmem t ht
  exact ticketOf_citation_keys c ctx fid

/-- C9: a candidate with one well-formed citation. -/
def c9Candidate : JSValue :=
  .vObj [("title", .vStr "Cited"),
         ("acceptance_criteria", .vArr [.vStr "A", .vStr "B"]),
         ("citations", .vArr [.vObj [("document_id", .vStr "doc_9"),
                                     ("chunk_id", .vStr "c7")]])]

/-- C9: the batch result for `c9Candidate`. -/
def c9Res : ValidationResult :=
  match validateAndRepairTickets [c9Candidate] ctxEmpty gen0 with
  | .ok r => r
  | .error _ => ⟨[], ⟨0, 0, 0, 0, 0, 0, []⟩⟩

/-- C9, witness: the derived keys of the ticket produced for the concrete
cited candidate match its citations. -/
theorem c9_citation_keys_derived_witness :
    (ticketOf c9Candidate ctxEmpty "fresh-id").citation_keys =
      (ticketOf c9Candidate ctxEmpty "fresh-id").citations.map
        (fun ci => ci.document_id ++ ":" ++ ci.chunk_id) :=
  c9_citation_keys_derived
    (show validateAndRepairTickets [c9Candidate] ctxEmpty gen0 = .ok c9Res from rfl)
    (ticketOf c9Candidate ctxEmpty "fresh-id") (List.mem_singleton.mpr rfl)

/-- C10 (confirmed). Whenever the batch call returns, the log satisfies
`total_input = total_output + dropped` and `total_output` is the length of
the returned ticket list: every candidate is either emitted exactly once or
counted as dropped exactly once. -/
theorem c10_log_counts {raw : List JSValue} {ctx : ValidationContext}
    {gen : ℕ → String} {res : ValidationResult}
    (h : validateAndRepairTickets raw ctx gen = .ok res) :
    res.log.total_input = res.log.total_output + res.log.dropped ∧
    res.log.total_output = res.tickets.length := by
  obtain ⟨log1, hp, hlog⟩ := validateAndRepairTickets_ok h
  obtain ⟨-, hdrop, hlen, -, hinput⟩ := processItems_ok hp
  constructor
  · rw [hlog]
    show log1.total_input = res.tickets.length + log1.dropped
    rw [hinput, hdrop, hlen]
    show raw.length = _
    dsimp only
    have hsplit := length_filter_add_length_filter_not raw (fun c => ¬ titleOf c = "")
    simp only [not_not] at hsplit
    omega
  · rw [hlog]

/-- C10: a mixed batch of one kept and one dropped candidate. -/
def c10Batch : List JSValue :=
  [.vObj [("title", .vStr "A")], .vObj [("description", .vStr "no title")]]

/-- C10: the batch result for `c10Batch`. -/
def c10Res : ValidationResult :=
  match validateAndRepairTickets c10Batch ctxEmpty gen0 with
  | .ok r => r
  | .error _ => ⟨[], ⟨0, 0, 0, 0, 0, 0, []⟩⟩

/-- C10, witness: the counters balance on the concrete mixed batch. -/
theorem c10_log_counts_witness :
    c10Res.log.total_input = c10Res.log.total_output + c10Res.log.dropped ∧
    c10Res.log.total_output = c10Res.tickets.length :=
  c10_log_counts
    (show validateAndRepairTickets c10Batch ctxEmpty gen0 = .ok c10Res from rfl)
